import Mathlib

/-!
Verification of `darktriad` (`src/index.js`, v3.1.1), a lexicon-based scorer
of the dark-triad personality traits.

The orchestrator `darkTriad` is embedded from `src/index.js`.  The scoring
helpers it imports from the `lex-helpers` package (`itemCount`, `getMatches`,
`doLex`, `doMatches`) are not part of the repository sources, so they are
modelled from the specification (sections 4.1 to 4.4); each such definition
carries a doc comment saying so.  External collaborators (the tokenizer, the
n-gram generator, the locale translator) are parameters of the embedding, as
the specification treats them as black boxes.

JavaScript dynamic values are modelled by `JVal` (arrays hold non-array
elements only, which covers every array this program manipulates).  JavaScript
numbers are modelled by `JNum`: exact rationals plus the two infinities and
NaN; `darkTriad` performs no float rounding of its own, so exact rational
arithmetic is faithful for the formulas at issue.  The `async` library is used
by the source only with synchronous iteratees; `async.each` over an array
(`eachOfArrayLike` in async v2/v3) starts every iteratee from a plain loop, so
an erroring item does not stop later items, and `async.parallel` with
synchronous tasks invokes its final callback synchronously; both are embedded
accordingly as plain folds and direct computation.
-/

set_option maxRecDepth 20000

/-- JavaScript number: an exact rational, an infinity, or NaN.  (The program
only adds, multiplies and compares lexicon weights; no float rounding is
involved in the claims at issue.) -/
inductive JNum where
  | num (q : ℚ)
  | posInf
  | negInf
  | nan
deriving DecidableEq, Repr

/-- A non-array JavaScript value (array element in this model). -/
inductive JAtom where
  | undef
  | null
  | bool (b : Bool)
  | num (n : JNum)
  | str (s : String)
deriving DecidableEq, Repr

/-- A JavaScript value.  Arrays hold non-array elements: the only arrays the
program manipulates are `nGrams` lists of numbers (or caller-supplied flat
lists), so nested arrays are not needed. -/
inductive JVal where
  | undef
  | null
  | bool (b : Bool)
  | num (n : JNum)
  | str (s : String)
  | arr (xs : List JAtom)
deriving DecidableEq, Repr

/-- Number wrapped as a `JVal`. -/
def jn (q : ℚ) : JVal := .num (.num q)

/-- Number wrapped as a `JAtom` (array element). -/
def ja (q : ℚ) : JAtom := .num (.num q)

/-- View an array element as a value. -/
def JAtom.toJVal : JAtom → JVal
  | .undef => .undef
  | .null => .null
  | .bool b => .bool b
  | .num n => .num n
  | .str s => .str s

/-- JavaScript ASCII lower-casing of one character (`String.prototype.toLowerCase`
restricted to ASCII letters, the alphabet of this lexicon). -/
def charToLower (c : Char) : Char :=
  match c with
  | 'A' => 'a' | 'B' => 'b' | 'C' => 'c' | 'D' => 'd' | 'E' => 'e' | 'F' => 'f'
  | 'G' => 'g' | 'H' => 'h' | 'I' => 'i' | 'J' => 'j' | 'K' => 'k' | 'L' => 'l'
  | 'M' => 'm' | 'N' => 'n' | 'O' => 'o' | 'P' => 'p' | 'Q' => 'q' | 'R' => 'r'
  | 'S' => 's' | 'T' => 't' | 'U' => 'u' | 'V' => 'v' | 'W' => 'w' | 'X' => 'x'
  | 'Y' => 'y' | 'Z' => 'z'
  | other => other

/-- JavaScript `toLowerCase` (ASCII letters). -/
def jsToLower (s : String) : String := String.mk (s.data.map charToLower)

/-- White space recognised by `String.prototype.trim`. -/
def isJsWS (c : Char) : Bool := c = ' ' ∨ c = '\t' ∨ c = '\n' ∨ c = '\r'

/-- JavaScript `String.prototype.trim`. -/
def jsTrim (s : String) : String :=
  String.mk (((s.data.dropWhile isJsWS).reverse.dropWhile isJsWS).reverse)

/-- Decimal digits of one character, if any. -/
def digitOf (c : Char) : Option ℕ :=
  if 48 ≤ c.toNat ∧ c.toNat ≤ 57 then some (c.toNat - 48) else none

/-- Split a leading run of decimal digits from a character list. -/
def takeDigits : List Char → (List ℕ × List Char)
  | [] => ([], [])
  | c :: cs =>
    match digitOf c with
    | some d => let p := takeDigits cs; (d :: p.1, p.2)
    | none => ([], c :: cs)

/-- Value of a digit list read most-significant first. -/
def digitsToNat (ds : List ℕ) : ℕ := ds.foldl (fun a d => 10 * a + d) 0

/-- JavaScript `Number(string)`: trimmed; empty means 0; an optional sign
followed by decimal digits with an optional fraction, or `Infinity`; anything
else is NaN.  (Exponent and hex forms are not modelled; no claim depends on
them.) -/
def strToNumber (s : String) : JNum :=
  let cs := ((s.data.dropWhile isJsWS).reverse.dropWhile isJsWS).reverse
  if cs.isEmpty then .num 0
  else
    let sg : ℚ × List Char :=
      match cs with
      | '-' :: r => (-1, r)
      | '+' :: r => (1, r)
      | r => (1, r)
    if sg.2 = "Infinity".data then (if sg.1 = 1 then .posInf else .negInf)
    else
      let ip := takeDigits sg.2
      match ip.2 with
      | [] => if ip.1.isEmpty then .nan else .num (sg.1 * (digitsToNat ip.1 : ℚ))
      | '.' :: r2 =>
        let fp := takeDigits r2
        if fp.2.isEmpty ∧ (¬ip.1.isEmpty ∨ ¬fp.1.isEmpty) then
          .num (sg.1 * ((digitsToNat ip.1 : ℚ) +
            (digitsToNat fp.1 : ℚ) / ((10 ^ fp.1.length : ℕ) : ℚ)))
        else .nan
      | _ => .nan

/-- JavaScript `Number(atom)` coercion. -/
def JAtom.toNumber : JAtom → JNum
  | .undef => .nan
  | .null => .num 0
  | .bool b => .num (if b then 1 else 0)
  | .num n => n
  | .str s => strToNumber s

/-- JavaScript `Number(value)` coercion (arrays go through their string form;
modelled directly: empty array is 0, a singleton coerces its element, longer
arrays are NaN). -/
def JVal.toNumber : JVal → JNum
  | .undef => .nan
  | .null => .num 0
  | .bool b => .num (if b then 1 else 0)
  | .num n => n
  | .str s => strToNumber s
  | .arr [] => .num 0
  | .arr [a] => a.toNumber
  | .arr (_ :: _ :: _) => .nan

/-- JavaScript `<` on numbers (false whenever NaN is involved). -/
def JNum.lt : JNum → JNum → Bool
  | .num a, .num b => decide (a < b)
  | .num _, .posInf => true
  | .negInf, .num _ => true
  | .negInf, .posInf => true
  | _, _ => false

/-- JavaScript truthiness. -/
def JVal.truthy : JVal → Bool
  | .undef => false
  | .null => false
  | .bool b => b
  | .num (.num q) => decide (q ≠ 0)
  | .num .posInf => true
  | .num .negInf => true
  | .num .nan => false
  | .str s => !s.data.isEmpty
  | .arr _ => true

/-- JavaScript `typeof v === 'number'`. -/
def JVal.isNumber : JVal → Bool
  | .num _ => true
  | _ => false

/-- JavaScript `Array.isArray`. -/
def JVal.isArr : JVal → Bool
  | .arr _ => true
  | _ => false

/-- Decimal string of a JavaScript number (integers and the special values;
non-integer printing is not needed by any claim). -/
def JNum.toStr : JNum → String
  | .posInf => "Infinity"
  | .negInf => "-Infinity"
  | .nan => "NaN"
  | .num q =>
    if q.den = 1 then
      (if q.num < 0 then "-" ++ Nat.repr q.num.natAbs else Nat.repr q.num.natAbs)
    else Nat.repr q.num.natAbs ++ "/" ++ Nat.repr q.den

/-- JavaScript `toString` of an array element (null and undefined print as
empty inside arrays). -/
def JAtom.toStr : JAtom → String
  | .undef => ""
  | .null => ""
  | .bool b => if b then "true" else "false"
  | .num n => n.toStr
  | .str s => s

/-- Comma join used by `Array.prototype.toString`. -/
def commaJoin : List String → String
  | [] => ""
  | [s] => s
  | s :: rest => s ++ "," ++ commaJoin rest

/-- JavaScript `v.toString()` (for the values that reach it in `darkTriad`:
the falsy check has already filtered `null`/`undefined`). -/
def JVal.toStr : JVal → String
  | .undef => "undefined"
  | .null => "null"
  | .bool b => if b then "true" else "false"
  | .num n => n.toStr
  | .str s => s
  | .arr xs => commaJoin (xs.map JAtom.toStr)

/-- Does `a` start with `pat`? -/
def leadsWith : List Char → List Char → Bool
  | [], _ => true
  | _ :: _, [] => false
  | a :: as, b :: bs => a = b && leadsWith as bs

/-- Does `s` contain `pat` as a contiguous run? -/
def hasSub (pat : List Char) : List Char → Bool
  | [] => leadsWith pat []
  | c :: rest => leadsWith pat (c :: rest) || hasSub pat rest

/-- JavaScript `v.match(/pat/gi)` truthiness for a lower-case literal pattern:
case-insensitive containment.  On a non-string the source would throw when
calling `.match`; no claim exercises that, and it is modelled as a miss. -/
def jContainsCI (v : JVal) (pat : String) : Bool :=
  match v with
  | .str s => hasSub pat.data (jsToLower s).data
  | _ => false

/-- JavaScript `v > (q : number)` comparison (numeric coercion, NaN false). -/
def jsGTnum (v : JVal) (q : ℚ) : Bool := JNum.lt (.num q) v.toNumber

/-- JavaScript `(wc : number) < v` comparison (numeric coercion, NaN false). -/
def jsLT (wc : ℕ) (v : JVal) : Bool := JNum.lt (.num (wc : ℚ)) v.toNumber

/-- JavaScript loose equality `v == true` (`true` coerces to the number 1). -/
def jsLooseEqTrue (v : JVal) : Bool :=
  match v with
  | .undef => false
  | .null => false
  | v => v.toNumber = .num 1

/-- JavaScript `v[0]` (for arrays and strings; `undefined` otherwise). -/
def jIndex0 : JVal → JVal
  | .arr [] => .undef
  | .arr (x :: _) => x.toJVal
  | .str s =>
    match s.data with
    | [] => .undef
    | c :: _ => .str (String.mk [c])
  | _ => (.undef : JVal)

/-- The items `async.each` iterates over: array elements; characters of a
string (strings are array-like); nothing for other non-iterable values. -/
def jIterItems : JVal → List JVal
  | .arr xs => xs.map JAtom.toJVal
  | .str s => s.data.map (fun c => .str (String.mk [c]))
  | _ => []

/-- The option fields `darkTriad` reads or writes (`src/index.js` lines
79-109).  A JavaScript object is open, but these are the only properties the
function touches, so a record of them is a faithful frame. -/
structure Opts where
  encoding : JVal := .undef
  locale : JVal := .undef
  logs : JVal := .undef
  suppressLog : JVal := .undef
  max : JVal := .undef
  min : JVal := .undef
  nGrams : JVal := .undef
  noInt : JVal := .undef
  output : JVal := .undef
  places : JVal := .undef
  sortBy : JVal := .undef
  wcGrams : JVal := .undef
deriving DecidableEq, Repr

/-- The source idiom `(typeof v !== 'undefined') ? v : dflt`. -/
def normDefault (v dflt : JVal) : JVal := if v = .undef then dflt else v

/-- Lines 85-94 of `src/index.js`: default `max`/`min` to the infinities, and
when either is not of number type, coerce both with `Number()` and then apply
the two ternaries exactly as written in the source (their branches test
`typeof !== 'number'` on the freshly coerced values). -/
def normMinMax (mn mx : JVal) : JVal × JVal :=
  let mx0 := normDefault mx (.num .posInf)
  let mn0 := normDefault mn (.num .negInf)
  if ¬mx0.isNumber ∨ ¬mn0.isNumber then
    let mnC : JVal := .num mn0.toNumber
    let mxC : JVal := .num mx0.toNumber
    (if ¬mnC.isNumber then mnC else .num .negInf,
     if ¬mxC.isNumber then mxC else .num .posInf)
  else (mn0, mx0)

/-- Lines 95-104 of `src/index.js`: default `nGrams` to `[2, 3]`; a non-array
value equal to `0` or `'0'` becomes `[0]`; any other non-array value is
replaced by `[2, 3]` only inside the `logs > 1` warning branch. -/
def normNGrams (ng logs : JVal) : JVal :=
  let ng0 := normDefault ng (.arr [ja 2, ja 3])
  if ng0.isArr then ng0
  else if ng0 = jn 0 ∨ ng0 = .str "0" then .arr [ja 0]
  else if jsGTnum logs 1 then .arr [ja 2, ja 3]
  else ng0

/-- Lines 81-109 of `src/index.js`: option defaulting and validation, written
field by field in source order.  The source mutates the caller's `opts`
object in place; this function computes the object's state after those
writes. -/
def normalizeOpts (o : Opts) : Opts :=
  let logs0 := normDefault o.logs (jn 2)
  let logs := if o.suppressLog.truthy then jn 0 else logs0
  let mm := normMinMax o.min o.max
  { o with
    encoding := normDefault o.encoding (.str "freq")
    locale := normDefault o.locale (.str "US")
    logs := logs
    max := mm.2
    min := mm.1
    nGrams := normNGrams o.nGrams logs
    noInt := normDefault o.noInt (.bool false)
    output := normDefault o.output (.str "lex")
    places := normDefault o.places (jn 9)
    sortBy := normDefault o.sortBy (.str "lex")
    wcGrams := normDefault o.wcGrams (.bool false) }

/-- One lexicon hit: matched word, its token count, its lexicon weight. -/
structure MatchEntry where
  word : String
  count : ℕ
  weight : ℚ
deriving DecidableEq, Repr

/-- Per-trait match sets, keyed by trait name in lexicon order. -/
abbrev Matches := List (String × List MatchEntry)

/-- The lexicon: per-trait association lists from word/n-gram to weight. -/
abbrev Lexicon := List (String × List (String × ℚ))

/-- Association-list lookup by string key. -/
def listLookup {α : Type} (k : String) : List (String × α) → Option α
  | [] => none
  | p :: rest => if p.1 = k then some p.2 else listLookup k rest

/-- Association-list lookup with a default. -/
def listLookupD {α : Type} (l : List (String × α)) (k : String) (d : α) : α :=
  (listLookup k l).getD d

/-- Modelled from the spec: the Frequency Counter (section 4.1) of the
`lex-helpers` package, which is not part of this repository's sources.  Maps
each distinct token to its occurrence count, keys in first-encounter order
(JavaScript object insertion order). -/
def itemCount (tokens : List String) : List (String × ℕ) :=
  tokens.foldl
    (fun acc t =>
      if (listLookup t acc).isSome then
        acc.map (fun p => if p.1 = t then (p.1, p.2 + 1) else p)
      else acc ++ [(t, 1)])
    []

/-- Modelled from the spec: the Match Resolver (section 4.2) of the
`lex-helpers` package, which is not part of this repository's sources.  For
each trait, every counted token present in that trait's lexicon with
`min < weight < max` (strict, numeric coercion on the bounds) becomes a
`MatchEntry`; other tokens are silently dropped. -/
def getMatches (counts : List (String × ℕ)) (lexicon : Lexicon)
    (mn mx : JVal) : Matches :=
  lexicon.map (fun cat =>
    (cat.1,
      counts.filterMap (fun p =>
        match listLookup p.1 cat.2 with
        | some w =>
          if JNum.lt mn.toNumber (.num w) && JNum.lt (.num w) mx.toNumber then
            some ⟨p.1, p.2, w⟩
          else none
        | none => none)))

/-- Round half away from zero to an integer. -/
def roundHalfAway (q : ℚ) : ℤ :=
  if 0 ≤ q then ⌊q + 1 / 2⌋ else -⌊-q + 1 / 2⌋

/-- Round to `d` decimal digits, half away from zero (the spec leaves the
half-rule open between this and half-to-even; this development fixes
half-away-from-zero and uses it consistently). -/
def roundPlaces (d : ℕ) (q : ℚ) : ℚ :=
  (roundHalfAway (q * ((10 ^ d : ℕ) : ℚ)) : ℚ) / ((10 ^ d : ℕ) : ℚ)

/-- The number of decimal places carried by the `places` option (a numeric
`JVal`; the default is 9). -/
def placesNat (v : JVal) : ℕ :=
  match v.toNumber with
  | .num q => ⌊q⌋.toNat
  | _ => 0

/-- Modelled from the spec: the Lexical Aggregator (section 4.3) of the
`lex-helpers` package, which is not part of this repository's sources, for a
single trait.  Null when the wordcount is 0 or the match set is empty;
otherwise `binary` adds the plain weights to the intercept, `percent` is the
distinct-match count over the wordcount (no intercept), and the default
`freq` adds `(count / wordcount) * weight` to the intercept.  Rounding to
`places` happens once, on the final value. -/
def calcLex (ms : List MatchEntry) (intercept : ℚ) (places : JVal)
    (enc : JVal) (wc : ℕ) : Option ℚ :=
  if wc = 0 ∨ ms = [] then none
  else if enc = .str "percent" then
    some (roundPlaces (placesNat places) ((ms.length : ℚ) / (wc : ℚ)))
  else if enc = .str "binary" then
    some (roundPlaces (placesNat places)
      (intercept + (ms.map (fun e => e.weight)).sum))
  else
    some (roundPlaces (placesNat places)
      (intercept + (ms.map (fun e => (e.count : ℚ) / (wc : ℚ) * e.weight)).sum))

/-- Modelled from the spec: the Lexical Aggregator (section 4.3) over all
traits, assembling a `TraitScores` mapping keyed by trait name. -/
def doLex (mts : Matches) (ints : List (String × ℚ)) (places enc : JVal)
    (wc : ℕ) : List (String × Option ℚ) :=
  mts.map (fun p => (p.1, calcLex p.2 (listLookupD ints p.1 0) places enc wc))

/-- One formatted match tuple `[word, count, weight, value]` (section 4.4). -/
structure FMatch where
  word : String
  count : ℕ
  weight : ℚ
  value : ℚ
deriving DecidableEq, Repr

/-- Modelled from the spec: the per-match contribution used by the Match
Formatter (section 4.4): the section 4.3 summation term of the configured
encoding (`percent` has no summation term; its itemised value is the count
share). -/
def matchValue (enc : JVal) (wc : ℕ) (e : MatchEntry) : ℚ :=
  if enc = .str "percent" then (e.count : ℚ) / (wc : ℚ)
  else if enc = .str "binary" then e.weight
  else (e.count : ℚ) / (wc : ℚ) * e.weight

/-- Sort key of a formatted match under a `sortBy` mode: `freq` is the count,
`weight` the raw weight, `lex` the computed value. -/
def sortKey (sortBy : JVal) (f : FMatch) : ℚ :=
  if sortBy = .str "lex" then f.value
  else if sortBy = .str "weight" then f.weight
  else (f.count : ℚ)

/-- Comes-no-later-than ordering of formatted matches: descending by the
`sortBy` key. -/
def sortLe (sortBy : JVal) (a b : FMatch) : Prop :=
  sortKey sortBy b ≤ sortKey sortBy a

instance (sortBy : JVal) : DecidableRel (sortLe sortBy) := fun a b =>
  inferInstanceAs (Decidable (sortKey sortBy b ≤ sortKey sortBy a))

/-- Modelled from the spec: the Match Formatter (section 4.4) of the
`lex-helpers` package for one trait: value each match (rounded to `places`),
then sort descending by the `sortBy` key with a stable sort (ties keep
encounter order; insertion sort is stable). -/
def prepareMatches (ms : List MatchEntry) (sortBy : JVal) (wc : ℕ)
    (places enc : JVal) : List FMatch :=
  let fs := ms.map (fun e =>
    ⟨e.word, e.count, e.weight, roundPlaces (placesNat places) (matchValue enc wc e)⟩)
  List.insertionSort (sortLe sortBy) fs

/-- Modelled from the spec: the Match Formatter over all traits (object keyed
by trait name). -/
def doMatches (mts : Matches) (sortBy : JVal) (wc : ℕ)
    (places enc : JVal) : List (String × List FMatch) :=
  mts.map (fun p => (p.1, prepareMatches p.2 sortBy wc places enc))

/-- The trait intercepts of `src/index.js` lines 155-160. -/
def defaultInts : List (String × ℚ) :=
  [("darktriad", 0.632024388686),
   ("machiavellianism", 0.596743883684),
   ("narcissism", 0.714881303759),
   ("psychopathy", 0.48892463341)]

/-- The zero intercepts of `src/index.js` lines 161-168 (`noInt`). -/
def zeroInts : List (String × ℚ) :=
  [("darktriad", 0), ("machiavellianism", 0), ("narcissism", 0), ("psychopathy", 0)]

/-- The external collaborators of the orchestrator: `happynodetokenizer`
(returning null or a token list), `british_american_translate.uk2us`, and
`arr2string ∘ simplengrams` (an n-gram token list for a requested size, which
the source passes through unvalidated). -/
structure Externals where
  tokenize : String → Option (List String)
  uk2us : String → String
  ngrams : String → JVal → List String

/-- Lines 138-149 of `src/index.js`: the `async.each` n-gram loop.  With the
source's synchronous iteratees, `async.each` over an array-like runs every
item from a plain loop even after one item has reported the
wordcount-less-than-n error, so each size is handled independently: a size
larger than the wordcount is skipped, any other size prepends its n-grams to
the token stream. -/
def addNGrams (ext : Externals) (s : String) (wc : ℕ) (ns : List JVal)
    (tokens : List String) : List String :=
  ns.foldl (fun toks n => if jsLT wc n then toks else ext.ngrams s n ++ toks) tokens

/-- Lines 117-168 of `src/index.js`: the pipeline from the (already
normalized) options to the per-trait matches, the intercepts and the
wordcount: falsy input and a null tokenizer result short-circuit to null;
otherwise lower-case, trim, optionally translate when the locale matches
/gb/gi, tokenize, add the n-grams unless `nGrams` is falsy or starts with 0,
optionally recount the words, resolve matches, and pick the intercepts. -/
def pipeline (ext : Externals) (lexicon : Lexicon) (strIn : JVal)
    (opts : Opts) : Option (Matches × List (String × ℚ) × ℕ) :=
  if strIn.truthy then
    let s1 := jsTrim (jsToLower strIn.toStr)
    let s := if jContainsCI opts.locale "gb" then ext.uk2us s1 else s1
    match ext.tokenize s with
    | none => none
    | some tokens0 =>
      let wordcount0 := tokens0.length
      let tokens :=
        if opts.nGrams.truthy ∧ jIndex0 opts.nGrams ≠ jn 0 then
          addNGrams ext s wordcount0 (jIterItems opts.nGrams) tokens0
        else tokens0
      let wordcount := if opts.wcGrams = .bool true then tokens.length else wordcount0
      let mts := getMatches (itemCount tokens) lexicon opts.min opts.max
      let ints := if jsLooseEqTrue opts.noInt then zeroInts else defaultInts
      some (mts, ints, wordcount)
  else none

/-- The three result shapes of `darkTriad`, plus the null result. -/
inductive Result where
  | null
  | lex (values : List (String × Option ℚ))
  | matchesOut (m : List (String × List FMatch))
  | full (values : List (String × Option ℚ)) (m : List (String × List FMatch))
deriving DecidableEq, Repr

/-- The `darkTriad` entry point of `src/index.js` (lines 79-197).  The first
component is the returned value; the second is the state of the caller's
`opts` object after the call (the source normalizes the options by writing
into that object).  The `output` dispatch follows lines 170-196: a `matches`
match first, then `full` (whose `async.parallel` tasks are synchronous, so
the assembled object is returned populated), and `lex` as the default. -/
def darkTriad (ext : Externals) (lexicon : Lexicon) (strIn : JVal)
    (optsIn : Opts) : Result × Opts :=
  match pipeline ext lexicon strIn (normalizeOpts optsIn) with
  | none => (.null, normalizeOpts optsIn)
  | some r =>
    ( if jContainsCI (normalizeOpts optsIn).output "matches" then
        .matchesOut (doMatches r.1 (normalizeOpts optsIn).sortBy r.2.2
          (normalizeOpts optsIn).places (normalizeOpts optsIn).encoding)
      else if jContainsCI (normalizeOpts optsIn).output "full" then
        .full (doLex r.1 r.2.1 (normalizeOpts optsIn).places
                (normalizeOpts optsIn).encoding r.2.2)
              (doMatches r.1 (normalizeOpts optsIn).sortBy r.2.2
                (normalizeOpts optsIn).places (normalizeOpts optsIn).encoding)
      else
        .lex (doLex r.1 r.2.1 (normalizeOpts optsIn).places
          (normalizeOpts optsIn).encoding r.2.2),
      normalizeOpts optsIn )

/-- The options record with its `output` field replaced (a record update on
an arbitrary base). -/
def setOutput (o : Opts) (v : JVal) : Opts :=
  { o with output := v }

/-! Concrete instances used to exercise the embedding on closed inputs. -/

/-- Split on single spaces, dropping empties (a concrete stand-in for the
external tokenizer, used only on closed inputs). -/
def wsSplitAux : List Char → List Char → List String
  | [], cur => if cur.isEmpty then [] else [String.mk cur.reverse]
  | c :: rest, cur =>
    if c = ' ' then
      (if cur.isEmpty then wsSplitAux rest []
       else String.mk cur.reverse :: wsSplitAux rest [])
    else wsSplitAux rest (c :: cur)

/-- A concrete whitespace tokenizer (never null). -/
def wsTokenize (s : String) : Option (List String) := some (wsSplitAux s.data [])

/-- Concrete externals: whitespace tokenizer, identity translator, no
n-grams. -/
def cExt : Externals := ⟨wsTokenize, id, fun _ _ => []⟩

/-- Concrete externals whose n-gram generator tags the requested size, so
that n-gram contributions are visible in results. -/
def cExtN : Externals := ⟨wsTokenize, id, fun _ n => ["gram" ++ n.toStr]⟩

/-- The toy lexicon of the specification's section 8 example. -/
def toyLexicon : Lexicon :=
  [("darktriad", [("note", -34.8), ("america", -49.2), ("capital", -133.9)])]

/-- The input text of the specification's section 8 example. -/
def cText : JVal := .str "note america america note note capital"

/-- The composite match set that the section 8 example resolves to. -/
def cMS : List MatchEntry :=
  [⟨"note", 3, -34.8⟩, ⟨"america", 2, -49.2⟩, ⟨"capital", 1, -133.9⟩]

/-- Two matches whose count order and value order disagree (for the sort-mode
theorems): the higher-valued match has the lower count. -/
def c8ms : List MatchEntry := [⟨"common", 3, 1⟩, ⟨"rare", 1, 100⟩]

/-! Helper lemmas -/

theorem charToLower_mem_or (c : Char) :
    charToLower c = c ∨ charToLower c ∈
      ['a', 'b', 'c', 'd', 'e', 'f', 'g', 'h', 'i', 'j', 'k', 'l', 'm',
       'n', 'o', 'p', 'q', 'r', 's', 't', 'u', 'v', 'w', 'x', 'y', 'z'] := by
  unfold charToLower
  split <;> simp

theorem charToLower_idem (c : Char) :
    charToLower (charToLower c) = charToLower c := by
  rcases charToLower_mem_or c with h | h
  · rw [h]
    exact h
  · simp only [List.mem_cons, List.not_mem_nil, or_false] at h
    rcases h with h|h|h|h|h|h|h|h|h|h|h|h|h|h|h|h|h|h|h|h|h|h|h|h|h|h <;>
      rw [h] <;> rfl

theorem mapToLower_idem (l : List Char) :
    (l.map charToLower).map charToLower = l.map charToLower := by
  induction l with
  | nil => rfl
  | cons c cs ih => simp [ih, charToLower_idem]

theorem jsToLower_idem (s : String) : jsToLower (jsToLower s) = jsToLower s := by
  cases s with
  | mk d =>
    show String.mk ((d.map charToLower).map charToLower) = String.mk (d.map charToLower)
    exact congrArg String.mk (mapToLower_idem d)

theorem truthy_str_lower (s : String) :
    (JVal.str (jsToLower s)).truthy = (JVal.str s).truthy := by
  cases s with
  | mk d => cases d <;> rfl

theorem pipeline_toLower (ext : Externals) (lexicon : Lexicon) (o : Opts) (s : String) :
    pipeline ext lexicon (.str (jsToLower s)) o = pipeline ext lexicon (.str s) o := by
  unfold pipeline
  rw [truthy_str_lower, show (JVal.str (jsToLower s)).toStr = jsToLower s from rfl,
      show (JVal.str s).toStr = s from rfl, jsToLower_idem]

theorem darkTriad_snd (ext : Externals) (lexicon : Lexicon) (strIn : JVal) (o : Opts) :
    (darkTriad ext lexicon strIn o).2 = normalizeOpts o := by
  unfold darkTriad
  rcases hp : pipeline ext lexicon strIn (normalizeOpts o) with _ | r <;> simp [hp]

theorem normDefault_idem (v d : JVal) (hd : d ≠ .undef) :
    normDefault (normDefault v d) d = normDefault v d := by
  by_cases h : v = .undef <;> simp [normDefault, h, hd]

theorem isNumber_ne_undef (v : JVal) (h : v.isNumber = true) : v ≠ .undef := by
  cases v <;> simp_all [JVal.isNumber]

theorem isArr_ne_undef (v : JVal) (h : v.isArr = true) : v ≠ .undef := by
  cases v <;> simp_all [JVal.isArr]

theorem normMinMax_isNumber (mn mx : JVal) :
    (normMinMax mn mx).1.isNumber = true ∧ (normMinMax mn mx).2.isNumber = true := by
  simp only [normMinMax]
  split
  · constructor <;> simp [JVal.isNumber]
  · next h =>
    simp only [not_or, Bool.not_eq_true, Bool.not_eq_false] at h
    exact ⟨h.2, h.1⟩

theorem normMinMax_of_numbers (a b : JVal) (ha : a.isNumber = true)
    (hb : b.isNumber = true) : normMinMax a b = (a, b) := by
  have hau : a ≠ .undef := isNumber_ne_undef a ha
  have hbu : b ≠ .undef := isNumber_ne_undef b hb
  simp [normMinMax, normDefault, hau, hbu, ha, hb]

theorem normMinMax_idem (mn mx : JVal) :
    normMinMax (normMinMax mn mx).1 (normMinMax mn mx).2 = normMinMax mn mx := by
  obtain ⟨h1, h2⟩ := normMinMax_isNumber mn mx
  exact normMinMax_of_numbers _ _ h1 h2

theorem normNGrams_of_arr (v logs : JVal) (h : v.isArr = true) :
    normNGrams v logs = v := by
  simp [normNGrams, normDefault, isArr_ne_undef v h, h]

theorem normNGrams_idem (ng logs : JVal) :
    normNGrams (normNGrams ng logs) logs = normNGrams ng logs := by
  by_cases hu : ng = .undef
  · subst hu
    have h1 : normNGrams JVal.undef logs = .arr [ja 2, ja 3] := by
      simp [normNGrams, normDefault, JVal.isArr]
    rw [h1]
    exact normNGrams_of_arr _ _ rfl
  · have hnd : normDefault ng (.arr [ja 2, ja 3]) = ng := by simp [normDefault, hu]
    by_cases ha : ng.isArr = true
    · have h1 : normNGrams ng logs = ng := by simp [normNGrams, hnd, ha]
      rw [h1]
      exact h1
    · by_cases h0 : ng = jn 0 ∨ ng = .str "0"
      · have h1 : normNGrams ng logs = .arr [ja 0] := by
          simp [normNGrams, hnd, ha, h0]
        rw [h1]
        exact normNGrams_of_arr _ _ rfl
      · by_cases hg : jsGTnum logs 1 = true
        · have h1 : normNGrams ng logs = .arr [ja 2, ja 3] := by
            simp [normNGrams, hnd, ha, h0, hg]
          rw [h1]
          exact normNGrams_of_arr _ _ rfl
        · have h1 : normNGrams ng logs = ng := by
            simp [normNGrams, hnd, ha, h0, hg]
          rw [h1]
          exact h1

theorem normLogs_idem (lg sup : JVal) :
    (if sup.truthy then jn 0
     else normDefault (if sup.truthy then jn 0 else normDefault lg (jn 2)) (jn 2)) =
    (if sup.truthy then jn 0 else normDefault lg (jn 2)) := by
  by_cases hs : sup.truthy = true <;>
    simp [hs, normDefault_idem lg (jn 2) (by simp [jn])]

theorem normalizeOpts_idem (o : Opts) :
    normalizeOpts (normalizeOpts o) = normalizeOpts o := by
  simp only [normalizeOpts, Opts.mk.injEq]
  refine ⟨?_, ?_, ?_, ?_, ?_, ?_, ?_, ?_, ?_, ?_, ?_, ?_⟩
  · exact normDefault_idem _ _ (by simp)
  · exact normDefault_idem _ _ (by simp)
  · exact normLogs_idem o.logs o.suppressLog
  · trivial
  · exact congrArg Prod.snd (normMinMax_idem o.min o.max)
  · exact congrArg Prod.fst (normMinMax_idem o.min o.max)
  · rw [normLogs_idem o.logs o.suppressLog]
    exact normNGrams_idem _ _
  · exact normDefault_idem _ _ (by simp)
  · exact normDefault_idem _ _ (by simp)
  · exact normDefault_idem _ _ (by simp [jn])
  · exact normDefault_idem _ _ (by simp)
  · exact normDefault_idem _ _ (by simp)

theorem listLookup_doLex (k : String) (mts : Matches) (ints : List (String × ℚ))
    (places enc : JVal) (wc : ℕ) (ms : List MatchEntry)
    (h : listLookup k mts = some ms) :
    listLookup k (doLex mts ints places enc wc) =
      some (calcLex ms (listLookupD ints k 0) places enc wc) := by
  induction mts with
  | nil => simp [listLookup] at h
  | cons p rest ih =>
    unfold listLookup at h
    unfold doLex listLookup
    rw [List.map_cons]
    by_cases hp : p.1 = k
    · rw [if_pos hp] at h
      obtain rfl := Option.some_injective _ h
      simp [hp]
    · rw [if_neg hp] at h
      simp only [hp, if_false]
      exact ih h

theorem normalizeOpts_set_output (o : Opts) (x : String) :
    normalizeOpts { o with output := .str x } =
      setOutput (normalizeOpts o) (.str x) := by
  simp [normalizeOpts, setOutput, normDefault]

theorem pipeline_setOutput (ext : Externals) (lexicon : Lexicon) (strIn : JVal)
    (o : Opts) (v : JVal) :
    pipeline ext lexicon strIn (setOutput o v) = pipeline ext lexicon strIn o := rfl

theorem setOutput_output (o : Opts) (v : JVal) : (setOutput o v).output = v := rfl

theorem setOutput_sortBy (o : Opts) (v : JVal) : (setOutput o v).sortBy = o.sortBy := rfl

theorem setOutput_places (o : Opts) (v : JVal) : (setOutput o v).places = o.places := rfl

theorem setOutput_encoding (o : Opts) (v : JVal) :
    (setOutput o v).encoding = o.encoding := rfl

/-! Claim theorems -/

/-- C1: for every input with wordcount > 0 and at least one composite lexicon
match, under the default `freq` encoding the `lex` output's `darktriad` score
equals the trait intercept plus the sum over all matched words of
`(count / wordcount) * weight`, with a single rounding to `places` decimal
digits applied to the exact sum at the final output step. -/
theorem darkTriad_freq_composite_score
    (ext : Externals) (lexicon : Lexicon) (strIn : JVal) (optsIn : Opts)
    (mts : Matches) (ints : List (String × ℚ)) (wc : ℕ) (ms : List MatchEntry)
    (henc : (normalizeOpts optsIn).encoding = .str "freq")
    (hout : (normalizeOpts optsIn).output = .str "lex")
    (hpipe : pipeline ext lexicon strIn (normalizeOpts optsIn) = some (mts, ints, wc))
    (hm : listLookup "darktriad" mts = some ms)
    (hwc : wc ≠ 0) (hms : ms ≠ []) :
    (darkTriad ext lexicon strIn optsIn).1 =
      Result.lex (doLex mts ints (normalizeOpts optsIn).places (.str "freq") wc) ∧
    listLookup "darktriad"
        (doLex mts ints (normalizeOpts optsIn).places (.str "freq") wc) =
      some (some (roundPlaces (placesNat (normalizeOpts optsIn).places)
        (listLookupD ints "darktriad" 0 +
          (ms.map (fun e => (e.count : ℚ) / (wc : ℚ) * e.weight)).sum))) := by
  constructor
  · have h1 : jContainsCI (normalizeOpts optsIn).output "matches" = false := by
      rw [hout]; decide
    have h2 : jContainsCI (normalizeOpts optsIn).output "full" = false := by
      rw [hout]; decide
    simp [darkTriad, hpipe, h1, h2, henc]
  · rw [listLookup_doLex "darktriad" mts ints _ _ wc ms hm]
    unfold calcLex
    rw [if_neg (by simp [hwc, hms]), if_neg (by decide), if_neg (by decide)]

unseal Rat.add Rat.mul Rat.inv Rat.sub Rat.ofScientific in
/-- Witness for `darkTriad_freq_composite_score` on the specification's own
section 8 example: six words, three composite matches, default options. -/
theorem darkTriad_freq_composite_score_witness :
    pipeline cExt toyLexicon cText (normalizeOpts {}) =
        some ([("darktriad", cMS)], defaultInts, 6) ∧
    ((darkTriad cExt toyLexicon cText ({} : Opts)).1 =
      Result.lex (doLex [("darktriad", cMS)] defaultInts
        (normalizeOpts ({} : Opts)).places (.str "freq") 6) ∧
    listLookup "darktriad"
        (doLex [("darktriad", cMS)] defaultInts
          (normalizeOpts ({} : Opts)).places (.str "freq") 6) =
      some (some (roundPlaces (placesNat (normalizeOpts ({} : Opts)).places)
        (listLookupD defaultInts "darktriad" 0 +
          (cMS.map (fun e => (e.count : ℚ) / (6 : ℚ) * e.weight)).sum)))) :=
  ⟨by decide,
   darkTriad_freq_composite_score cExt toyLexicon cText {} [("darktriad", cMS)]
     defaultInts 6 cMS (by decide) (by decide) (by decide) (by decide)
     (by decide) (by decide)⟩

/-- C2 amended: `darkTriad` returns null exactly on falsy inputs (the empty
string, null, undefined, 0, NaN, false) without throwing; a truthy non-string
input is instead coerced with `toString` and analyzed (see the
counterexample). -/
theorem darkTriad_falsy_input_null (ext : Externals) (lexicon : Lexicon)
    (o : Opts) (v : JVal) (h : v.truthy = false) :
    (darkTriad ext lexicon v o).1 = Result.null := by
  unfold darkTriad pipeline
  simp [h]

/-- Witness for `darkTriad_falsy_input_null`: the null input. -/
theorem darkTriad_falsy_input_null_witness :
    JVal.null.truthy = false ∧
    (darkTriad cExt toyLexicon .null ({} : Opts)).1 = Result.null :=
  ⟨rfl, darkTriad_falsy_input_null cExt toyLexicon {} .null rfl⟩

unseal Rat.add Rat.mul Rat.inv Rat.sub Rat.ofScientific in
/-- C2 counterexample: the number 42 is a non-string input, yet the call does
not return null: the source only rejects falsy values and coerces any truthy
non-string with `toString`, so 42 is analyzed as the text "42". -/
theorem darkTriad_truthy_nonstring_not_null :
    (darkTriad cExt toyLexicon (jn 42) ({} : Opts)).1 ≠ Result.null := by decide

unseal Rat.add Rat.mul Rat.inv Rat.sub Rat.ofScientific in
/-- C3: evaluating lines 85-94 of `src/index.js` on `min = "5"`.  `Number("5")`
succeeds (it is 5), yet the normalized bounds come out as the infinities: the
two ternaries that should keep a successful coercion test `typeof !==
'number'` on values that are always numbers, so both bounds are
unconditionally reset.  The code's own comment says "check it worked, or else
default to infinity". -/
theorem minMax_coercion_always_discarded :
    strToNumber "5" = .num 5 ∧
    (normalizeOpts { min := .str "5" }).min = .num .negInf ∧
    (normalizeOpts { min := .str "5" }).max = .num .posInf := by decide

unseal Rat.add Rat.mul Rat.inv Rat.sub Rat.ofScientific in
/-- C4: evaluating lines 95-104 of `src/index.js` on the invalid value
`nGrams = "abc"`.  At the default verbosity (`logs = 2`) the option falls back
to `[2, 3]` as documented, but at `logs = 0` the fallback assignment is
skipped (it sits inside the `logs > 1` warning branch) and the invalid value
is kept, contradicting the claim's "for every logs level". -/
theorem nGrams_fallback_gated_on_logs :
    (normalizeOpts { nGrams := .str "abc", logs := jn 0 }).nGrams = .str "abc" ∧
    (normalizeOpts { nGrams := .str "abc", logs := jn 2 }).nGrams =
      .arr [ja 2, ja 3] := by decide

/-- C5: in the n-gram loop an oversized size `n` (wordcount < n) is skipped
without affecting any other configured size: removing the oversized size from
the list leaves the token stream unchanged, wherever it sits in the list
(async v2's `each` over an array runs every iteratee even after one reports
an error). -/
theorem addNGrams_skips_oversized_independently
    (ext : Externals) (s : String) (wc : ℕ) (ns1 ns2 : List JVal) (n : JVal)
    (toks : List String) (h : jsLT wc n = true) :
    addNGrams ext s wc (ns1 ++ n :: ns2) toks =
      addNGrams ext s wc (ns1 ++ ns2) toks := by
  unfold addNGrams
  rw [List.foldl_append, List.foldl_append, List.foldl_cons, if_pos h]

/-- Witness for `addNGrams_skips_oversized_independently`: wordcount 2 with
sizes `[3, 2]`; the oversized 3 is dropped while the 2-gram contribution
`gram2` is still produced. -/
theorem addNGrams_skips_oversized_independently_witness :
    jsLT 2 (jn 3) = true ∧
    addNGrams cExtN "a b" 2 [jn 3, jn 2] ["a", "b"] =
      addNGrams cExtN "a b" 2 [jn 2] ["a", "b"] ∧
    addNGrams cExtN "a b" 2 [jn 3, jn 2] ["a", "b"] = ["gram2", "a", "b"] :=
  ⟨by decide,
   addNGrams_skips_oversized_independently cExtN "a b" 2 [] [jn 2] (jn 3)
     ["a", "b"] (by decide),
   by decide⟩

/-- C6: a call with `output: 'full'` returns a populated object whose
`values` field is the result of a separate `output: 'lex'` call and whose
`matches` field is the result of a separate `output: 'matches'` call on the
same input and options (the `async.parallel` tasks are synchronous, so the
source's `results` is assigned before it is returned). -/
theorem output_full_roundtrip (ext : Externals) (lexicon : Lexicon)
    (strIn : JVal) (opts : Opts)
    (v : List (String × Option ℚ)) (m : List (String × List FMatch))
    (hL : (darkTriad ext lexicon strIn { opts with output := .str "lex" }).1 =
      Result.lex v)
    (hM : (darkTriad ext lexicon strIn { opts with output := .str "matches" }).1 =
      Result.matchesOut m) :
    (darkTriad ext lexicon strIn { opts with output := .str "full" }).1 =
      Result.full v m := by
  unfold darkTriad at hL hM ⊢
  rw [normalizeOpts_set_output] at hL hM ⊢
  rw [pipeline_setOutput] at hL hM ⊢
  rcases hp : pipeline ext lexicon strIn (normalizeOpts opts) with _ | r
  · rw [hp] at hL
    simp at hL
  · rw [hp] at hL hM
    simp only [setOutput_output, setOutput_sortBy, setOutput_places,
      setOutput_encoding] at hL hM ⊢
    have c1 : jContainsCI (JVal.str "lex") "matches" = false := by decide
    have c2 : jContainsCI (JVal.str "lex") "full" = false := by decide
    have c3 : jContainsCI (JVal.str "matches") "matches" = true := by decide
    have c4 : jContainsCI (JVal.str "full") "matches" = false := by decide
    have c5 : jContainsCI (JVal.str "full") "full" = true := by decide
    simp only [c1, c2, c3, c4, c5, Bool.false_eq_true, if_false, if_true] at hL hM ⊢
    simp only [Result.lex.injEq] at hL
    simp only [Result.matchesOut.injEq] at hM
    rw [hL, hM]

unseal Rat.add Rat.mul Rat.inv Rat.sub Rat.ofScientific in
/-- Witness for `output_full_roundtrip` on the section 8 example text and
lexicon. -/
theorem output_full_roundtrip_witness :
    (darkTriad cExt toyLexicon cText { ({} : Opts) with output := .str "lex" }).1 =
      Result.lex (doLex [("darktriad", cMS)] defaultInts (jn 9) (.str "freq") 6) ∧
    (darkTriad cExt toyLexicon cText { ({} : Opts) with output := .str "matches" }).1 =
      Result.matchesOut (doMatches [("darktriad", cMS)] (.str "lex") 6 (jn 9) (.str "freq")) ∧
    (darkTriad cExt toyLexicon cText { ({} : Opts) with output := .str "full" }).1 =
      Result.full (doLex [("darktriad", cMS)] defaultInts (jn 9) (.str "freq") 6)
        (doMatches [("darktriad", cMS)] (.str "lex") 6 (jn 9) (.str "freq")) :=
  ⟨by decide, by decide,
   output_full_roundtrip cExt toyLexicon cText {}
     (doLex [("darktriad", cMS)] defaultInts (jn 9) (.str "freq") 6)
     (doMatches [("darktriad", cMS)] (.str "lex") 6 (jn 9) (.str "freq"))
     (by decide) (by decide)⟩

/-- C7: for any trait present in the resolved matches, when that trait's
match set is empty or the wordcount is 0 the Lexical Aggregator yields null
(not a number and not an error) for that trait. -/
theorem doLex_null_on_empty_or_zero (mts : Matches) (ints : List (String × ℚ))
    (places enc : JVal) (wc : ℕ) (cat : String) (ms : List MatchEntry)
    (hk : listLookup cat mts = some ms) (h : wc = 0 ∨ ms = []) :
    listLookup cat (doLex mts ints places enc wc) = some none := by
  rw [listLookup_doLex cat mts ints places enc wc ms hk]
  unfold calcLex
  rw [if_pos h]

unseal Rat.add Rat.mul Rat.inv Rat.sub Rat.ofScientific in
/-- Witness for `doLex_null_on_empty_or_zero`: bounds `min = 0`, `max = 1`
exclude the weight of the only matching token, so the composite match set is
empty and the aggregated score is null. -/
theorem doLex_null_on_empty_or_zero_witness :
    listLookup "darktriad"
        (getMatches (itemCount ["note"]) toyLexicon (jn 0) (jn 1)) = some [] ∧
    listLookup "darktriad"
        (doLex (getMatches (itemCount ["note"]) toyLexicon (jn 0) (jn 1))
          defaultInts (jn 9) (.str "freq") 1) = some none :=
  ⟨by decide,
   doLex_null_on_empty_or_zero
     (getMatches (itemCount ["note"]) toyLexicon (jn 0) (jn 1))
     defaultInts (jn 9) (.str "freq") 1 "darktriad" [] (by decide)
     (Or.inr rfl)⟩

unseal Rat.add Rat.mul Rat.inv Rat.sub Rat.ofScientific in
/-- C8 counterexample: with `sortBy` omitted the source defaults it to `lex`,
not `freq` (line 108), and the resulting match list is ordered by computed
value, not by count: on two matches with counts 3 and 1 the count-1 match
comes first because its value is larger, so the list is not non-increasing in
count. -/
theorem sortBy_default_not_freq :
    (normalizeOpts ({} : Opts)).sortBy ≠ .str "freq" ∧
    doMatches [("darktriad", c8ms)] ((normalizeOpts ({} : Opts)).sortBy) 4
        (jn 9) (.str "freq") =
      [("darktriad", [⟨"rare", 1, 100, 25⟩, ⟨"common", 3, 1, 3 / 4⟩])] ∧
    ¬ List.Pairwise (fun a b => b.count ≤ a.count)
        [FMatch.mk "rare" 1 100 25, FMatch.mk "common" 3 1 (3 / 4)] := by
  refine ⟨by decide, by decide, by decide⟩

/-- C8 amended: when `sortBy` is omitted the default sort mode is `lex`:
each trait's match list is ordered descending (non-increasing) by the
computed value, ties keeping the original encounter order (the sort is
stable). -/
theorem sortBy_default_lex_value_descending (o : Opts) (h : o.sortBy = .undef)
    (ms : List MatchEntry) (wc : ℕ) (places enc : JVal) :
    (normalizeOpts o).sortBy = .str "lex" ∧
    List.Pairwise (fun a b => b.value ≤ a.value)
      (prepareMatches ms (.str "lex") wc places enc) := by
  refine ⟨by simp [normalizeOpts, normDefault, h], ?_⟩
  have hs := @List.sorted_insertionSort FMatch (sortLe (.str "lex")) _
      ⟨fun a b => le_total (sortKey (.str "lex") b) (sortKey (.str "lex") a)⟩
      ⟨fun a b c hab hbc => le_trans hbc hab⟩
      (ms.map (fun e =>
        ⟨e.word, e.count, e.weight, roundPlaces (placesNat places) (matchValue enc wc e)⟩))
  unfold prepareMatches
  refine List.Pairwise.imp ?_ hs
  intro a b hab
  simpa [sortLe, sortKey] using hab

unseal Rat.add Rat.mul Rat.inv Rat.sub Rat.ofScientific in
/-- Witness for `sortBy_default_lex_value_descending` on the two-match list
whose count order and value order disagree. -/
theorem sortBy_default_lex_value_descending_witness :
    ({} : Opts).sortBy = .undef ∧
    ((normalizeOpts ({} : Opts)).sortBy = .str "lex" ∧
     List.Pairwise (fun a b => b.value ≤ a.value)
       (prepareMatches c8ms (.str "lex") 4 (jn 9) (.str "freq"))) :=
  ⟨rfl, sortBy_default_lex_value_descending {} rfl c8ms 4 (jn 9) (.str "freq")⟩

unseal Rat.add Rat.mul Rat.inv Rat.sub Rat.ofScientific in
/-- C9 counterexample: the caller's options object is not left unchanged:
`darkTriad` writes the normalized option values into it, so after a call with
an empty options object the object has, for example, `encoding` set. -/
theorem darkTriad_mutates_caller_opts :
    (darkTriad cExt toyLexicon (.str "note") ({} : Opts)).2 ≠ ({} : Opts) := by
  decide

/-- C9 amended: `darkTriad` mutates the caller's options object, writing the
defaulted and coerced fields into it; the mutation is idempotent, so an
already-normalized object (one that has been passed through a call) is left
unchanged by further calls, which is the sense in which reuse across calls is
safe. -/
theorem darkTriad_opts_mutation_idempotent (ext : Externals) (lexicon : Lexicon)
    (strIn : JVal) (o : Opts) :
    (darkTriad ext lexicon strIn ((darkTriad ext lexicon strIn o).2)).2 =
      (darkTriad ext lexicon strIn o).2 := by
  simp only [darkTriad_snd]
  exact normalizeOpts_idem o

/-- C10: `darkTriad` is case-insensitive in its text argument: analyzing the
lower-cased text gives the same result (and the same final options state) as
analyzing the original, because the input is lower-cased and trimmed before
tokenization. -/
theorem darkTriad_case_insensitive (ext : Externals) (lexicon : Lexicon)
    (s : String) (o : Opts) :
    darkTriad ext lexicon (.str (jsToLower s)) o =
      darkTriad ext lexicon (.str s) o := by
  unfold darkTriad
  rw [pipeline_toLower]
